import Mathlib

/-! Shallow embedding of the skills-ml corpus creation core
(skills_ml/job_postings/corpora/__init__.py) and the preprocessing
pipeline (skills_ml/algorithms/preprocessing/__init__.py), together with
theorems checking the specification claims against it.

Python string primitives are embedded as executable functions over the
character list of a string, so that every definition evaluates inside the
kernel. -/

/-- Does the character list start with the given pattern list? -/
def listHasPre : List Char → List Char → Bool
  | [], _ => true
  | _ :: _, [] => false
  | p :: ps, c :: cs => c == p && listHasPre ps cs

/-- Python s.startswith(pre). -/
def pyStartsWith (s pre : String) : Bool :=
  listHasPre pre.toList s.toList

/-- Python s.endswith(suf). -/
def pyEndsWith (s suf : String) : Bool :=
  listHasPre suf.toList.reverse s.toList.reverse

/-- Python s.strip(): drop leading and trailing whitespace. -/
def pyStrip (s : String) : String :=
  String.mk (((s.toList.dropWhile Char.isWhitespace).reverse.dropWhile Char.isWhitespace).reverse)

/-- Splitter for Python s.split(sep) with a nonempty separator, fuelled so the
recursion is structural; the fuel is always instantiated large enough that the
base fuel case is never reached. -/
def splitOnList (sep : List Char) : Nat → List Char → List Char → List (List Char)
  | 0, acc, l => [acc.reverse ++ l]
  | _ + 1, acc, [] => [acc.reverse]
  | fuel + 1, acc, c :: cs =>
    if listHasPre sep (c :: cs) && !sep.isEmpty then
      acc.reverse :: splitOnList sep fuel [] (List.drop sep.length (c :: cs))
    else
      splitOnList sep fuel (c :: acc) cs

/-- Python s.split(sep) for a nonempty separator string: empty pieces are kept. -/
def pySplitOn (s sep : String) : List String :=
  (splitOnList sep.toList (s.toList.length + 1) [] s.toList).map String.mk

/-- Splitter for Python s.split() with no argument: split on whitespace runs,
dropping empty pieces. -/
def splitWsList : List Char → List Char → List (List Char)
  | acc, [] => if acc.isEmpty then [] else [acc.reverse]
  | acc, c :: cs =>
    if c.isWhitespace then
      if acc.isEmpty then splitWsList [] cs else acc.reverse :: splitWsList [] cs
    else splitWsList (c :: acc) cs

/-- Python s.split() with no argument. -/
def pySplitWs (s : String) : List String :=
  (splitWsList [] s.toList).map String.mk

/-- Replacement loop for Python s.replace(pat, rep) with a nonempty pattern:
every non-overlapping occurrence is replaced, scanning left to right. The
fuel is always instantiated large enough that the base fuel case is never
reached. -/
def replaceList (pat rep : List Char) : Nat → List Char → List Char
  | 0, l => l
  | _ + 1, [] => []
  | fuel + 1, c :: cs =>
    if listHasPre pat (c :: cs) && !pat.isEmpty then
      rep ++ replaceList pat rep fuel (List.drop pat.length (c :: cs))
    else
      c :: replaceList pat rep fuel cs

/-- Python s.replace(pat, rep), for the nonempty patterns used in the source. -/
def pyReplace (s pat rep : String) : String :=
  String.mk (replaceList pat.toList rep.toList (s.toList.length + 1) s.toList)

/-- Python sep.join(pieces). -/
def pyJoin (sep : String) : List String → String
  | [] => ""
  | s :: rest => rest.foldl (fun acc t => acc ++ sep ++ t) s

/-- A job posting document: a mapping from schema field name to string value
(a Python dict, embedded as an association list). -/
abbrev Document := List (String × String)

/-- Python document.get(f) as an optional value. -/
def Document.get? : Document → String → Option String
  | [], _ => none
  | (k, v) :: rest, f => if k = f then some v else Document.get? rest f

/-- Python document.get(f, default). -/
def Document.getD (d : Document) (f dflt : String) : String :=
  (d.get? f).getD dflt

/-- Python document[f]: the value at key f, or a KeyError carrying the key. -/
def Document.getE (d : Document) (f : String) : Except String String :=
  match d.get? f with
  | some v => Except.ok v
  | none => Except.error f

/-- Python document[f] = v: replace the value at key f in place, inserting at
the end when the key is absent. -/
def Document.set : Document → String → String → Document
  | [], f, v => [(f, v)]
  | (k, w) :: rest, f, v =>
    if k = f then (f, v) :: rest else (k, w) :: Document.set rest f v

/-- Interface of the external text transform collaborator
(skills_ml.algorithms.string_cleaners.NLPTransforms), held as self.nlp by
every corpus creator: an HTML-to-text cleaner, a generic string cleaner, and
a lowercase-plus-strip-punctuation transform. -/
structure NLPTransforms where
  clean_html : String → String
  clean_str : String → String
  lowercase_strip_punc : String → String

/-- Modelled from the spec: the lowercase-plus-punctuation-stripper of the
Text Transform Library (NLPTransforms.lowercase_strip_punc lives in
skills_ml/algorithms/string_cleaners, outside src/): lowercase every
character and remove punctuation characters. -/
def lowercaseStripPunc (s : String) : String :=
  String.mk ((s.toList.filter (fun c => !([',', '.', '!', '?', ';', ':'].contains c))).map Char.toLower)

/-- A concrete instantiation of the collaborator interface, used in closed
evaluations: identity cleaners together with the spec-modelled
lowercase-plus-strip-punctuation transform. -/
def specNLP : NLPTransforms :=
  ⟨id, id, lowercaseStripPunc⟩

/-- Default document_schema_fields of CorpusCreator.__init__ (and of every
variant constructor that repeats the default). -/
def defaultFields : List String :=
  ["description", "experienceRequirements", "qualifications", "skills"]

/-- Body of CorpusCreator._clean for one field f: try to read document[f],
clean it (clean_html, remove newline characters, collapse whitespace runs to
single spaces) and write it back; a KeyError on the read is swallowed and the
document is returned unchanged. -/
def cleanField (nlp : NLPTransforms) (document : Document) (f : String) : Document :=
  match document.getE f with
  | Except.ok v =>
      document.set f (pyJoin " " (pySplitWs (pyReplace (nlp.clean_html v) "\n" "")))
  | Except.error _ => document

/-- CorpusCreator._clean: run cleanField over the configured fields in order. -/
def CorpusCreator.clean (nlp : NLPTransforms) (fields : List String) (document : Document) : Document :=
  fields.foldl (cleanField nlp) document

/-- CorpusCreator._join: the raw values of the configured fields, absent
fields contributing the empty string, joined by single spaces in field
order. -/
def CorpusCreator.join (fields : List String) (document : Document) : String :=
  pyJoin " " (fields.map (fun f => document.getD f ""))

/-- Output of CorpusCreator._transform: a cleaned document in clean mode, one
joined raw string in raw mode. -/
inductive BaseOutput where
  | document (d : Document)
  | text (s : String)
deriving DecidableEq

/-- CorpusCreator._transform: dispatch on the raw flag. -/
def CorpusCreator.transform (nlp : NLPTransforms) (fields : List String) (raw : Bool) (document : Document) : BaseOutput :=
  if raw then BaseOutput.text (CorpusCreator.join fields document)
  else BaseOutput.document (CorpusCreator.clean nlp fields document)

/-- The dict comprehension at the top of CorpusCreator.__iter__: project the
document down to the configured fields, in field order; document[key] raises
a KeyError (carried as the error value) on a missing key. -/
def project : List String → Document → Except String Document
  | [], _ => Except.ok []
  | f :: rest, document =>
    match document.getE f with
    | Except.error e => Except.error e
    | Except.ok v =>
      match project rest document with
      | Except.error e => Except.error e
      | Except.ok pd => Except.ok ((f, v) :: pd)

/-- A Python list comprehension over the configured fields whose element
expression may raise: evaluated left to right, the first raise aborts. -/
def mapExcept (g : String → Except String String) : List String → Except String (List String)
  | [] => Except.ok []
  | f :: rest =>
    match g f with
    | Except.error e => Except.error e
    | Except.ok v =>
      match mapExcept g rest with
      | Except.error e => Except.error e
      | Except.ok vs => Except.ok (v :: vs)

/-- CorpusCreator.__iter__ run to completion over a finite source: project
each pulled document down to the configured fields, then transform the
projection; the first KeyError aborts the iteration. -/
def CorpusCreator.iter (nlp : NLPTransforms) (fields : List String) (raw : Bool) : List Document → Except String (List BaseOutput)
  | [] => Except.ok []
  | d :: rest =>
    match project fields d with
    | Except.error e => Except.error e
    | Except.ok pd =>
      match CorpusCreator.iter nlp fields raw rest with
      | Except.error e => Except.error e
      | Except.ok outs => Except.ok (CorpusCreator.transform nlp fields raw pd :: outs)

/-- SimpleCorpusCreator._clean: one lowercased punctuation-stripped string,
absent fields contributing the empty string. -/
def SimpleCorpusCreator.clean (nlp : NLPTransforms) (fields : List String) (document : Document) : String :=
  pyJoin " " (fields.map (fun f => nlp.lowercase_strip_punc (document.getD f "")))

/-- The transform a SimpleCorpusCreator instance runs: the class overrides
only _clean, so the inherited CorpusCreator._transform dispatches to the base
_join when the raw flag is set and to the overridden _clean otherwise. -/
def SimpleCorpusCreator.transform (nlp : NLPTransforms) (fields : List String) (raw : Bool) (document : Document) : String :=
  if raw then CorpusCreator.join fields document
  else SimpleCorpusCreator.clean nlp fields document

/-- SimpleCorpusCreator iteration over a finite source: the inherited
CorpusCreator.__iter__ projects each document and applies the dispatched
transform. -/
def SimpleCorpusCreator.iter (nlp : NLPTransforms) (fields : List String) (raw : Bool) : List Document → Except String (List String)
  | [] => Except.ok []
  | d :: rest =>
    match project fields d with
    | Except.error e => Except.error e
    | Except.ok pd =>
      match SimpleCorpusCreator.iter nlp fields raw rest with
      | Except.error e => Except.error e
      | Except.ok outs => Except.ok (SimpleCorpusCreator.transform nlp fields raw pd :: outs)

/-- Doc2VecGensimCorpusCreator._clean: clean_str of document[field] for each
configured field, joined by spaces; document[field] raises on a missing
key. -/
def Doc2VecGensimCorpusCreator.clean (nlp : NLPTransforms) (fields : List String) (document : Document) : Except String String :=
  (mapExcept (fun f => (document.getE f).map nlp.clean_str) fields).map (fun vs => pyJoin " " vs)

/-- Word2VecGensimCorpusCreator._clean: textually identical to the Doc2Vec
variant's _clean in the source. -/
def Word2VecGensimCorpusCreator.clean (nlp : NLPTransforms) (fields : List String) (document : Document) : Except String String :=
  (mapExcept (fun f => (document.getE f).map nlp.clean_str) fields).map (fun vs => pyJoin " " vs)

/-- gensim.models.doc2vec.TaggedDocument as used by the source: a word list
paired with a tag list. -/
structure TaggedDocument where
  words : List String
  tags : List Nat
deriving DecidableEq

/-- Modelled from the spec: the safe-get collaborator utility
(skills_utils.common.safe_get, an external package) — given a mapping and a
key, return the value or a defined default (none) without raising. -/
def safe_get (document : Document) (k : String) : Option String :=
  document.get? k

/-- The Doc2Vec lookup dict, mapping an integer tag to the document's
onet_soc_code as returned by safe_get. -/
abbrev Lookup := List (Nat × Option String)

/-- Python lookup[k] = v on the lookup dict. -/
def Lookup.set : Lookup → Nat → Option String → Lookup
  | [], k, v => [(k, v)]
  | (k', w) :: rest, k, v =>
    if k' = k then (k, v) :: rest else (k', w) :: Lookup.set rest k v

/-- Python lookup.get(k) on the lookup dict. -/
def Lookup.get? : Lookup → Nat → Option (Option String)
  | [], _ => none
  | (k', w) :: rest, k => if k' = k then some w else Lookup.get? rest k

/-- Doc2VecGensimCorpusCreator._transform: split the cleaned string on
whitespace and tag the word list with the current counter value k. -/
def Doc2VecGensimCorpusCreator.transform (nlp : NLPTransforms) (fields : List String) (k : Nat) (document : Document) : Except String TaggedDocument :=
  (Doc2VecGensimCorpusCreator.clean nlp fields document).map (fun s => ⟨pySplitWs s, [k]⟩)

/-- Doc2VecGensimCorpusCreator.__iter__ from counter value k and lookup
state: for each pulled document, first record lookup[k] = safe_get of the
document's onet_soc_code, then yield the transform tagged [k], then increment
k. No projection happens in this overridden iterator. The first KeyError
inside the transform aborts the iteration. -/
def Doc2VecGensimCorpusCreator.iterFrom (nlp : NLPTransforms) (fields : List String) : List Document → Nat → Lookup → Except String (Lookup × List TaggedDocument)
  | [], _, lookup => Except.ok (lookup, [])
  | d :: rest, k, lookup =>
    match Doc2VecGensimCorpusCreator.transform nlp fields k d with
    | Except.error e => Except.error e
    | Except.ok td =>
      match Doc2VecGensimCorpusCreator.iterFrom nlp fields rest (k + 1) (Lookup.set lookup k (safe_get d "onet_soc_code")) with
      | Except.error e => Except.error e
      | Except.ok (lfin, tds) => Except.ok (lfin, td :: tds)

/-- One full pass of a freshly constructed Doc2VecGensimCorpusCreator:
__init__ sets lookup = empty and k = 0. -/
def Doc2VecGensimCorpusCreator.iter (nlp : NLPTransforms) (fields : List String) (docs : List Document) : Except String (Lookup × List TaggedDocument) :=
  Doc2VecGensimCorpusCreator.iterFrom nlp fields docs 0 []

/-- The class attribute document_schema_fields declared on
JobCategoryCorpusCreator. -/
def JobCategoryCorpusCreator.class_document_schema_fields : List String :=
  ["occupationalCategory"]

/-- JobCategoryCorpusCreator._transform: lowercase_strip_punc of
document[field] joined over self.document_schema_fields. At runtime
self.document_schema_fields is the instance attribute that the inherited
CorpusCreator.__init__ assigns from its constructor parameter (defaulting to
defaultFields), shadowing the class attribute, so it is passed here as an
argument. -/
def JobCategoryCorpusCreator.transform (nlp : NLPTransforms) (document_schema_fields : List String) (document : Document) : Except String String :=
  (mapExcept (fun f => (document.getE f).map nlp.lowercase_strip_punc) document_schema_fields).map (fun vs => pyJoin " " vs)

/-- func2gen: wrap an item transform into a generator transform. Input items
equal to Python None (embedded as none) are skipped; for every other input
item the wrapped function's result is yielded — even when that result is
itself None. -/
def func2gen {V : Type} (f : V → Option V) : List (Option V) → List (Option V)
  | [] => []
  | none :: rest => func2gen f rest
  | some v :: rest => f v :: func2gen f rest

/-- IterablePipeline._compose: the functools.reduce in the source, composing
the wrapped stages left to right over an identity base. -/
def IterablePipeline.compose {V : Type} (functions : List (V → Option V)) : List (Option V) → List (Option V) :=
  functions.foldl (fun acc f => fun xs => func2gen f (acc xs)) (fun xs => xs)

/-- IterablePipeline.build: apply the fully composed transform to a source
sequence. -/
def IterablePipeline.build {V : Type} (functions : List (V → Option V)) (source : List (Option V)) : List (Option V) :=
  IterablePipeline.compose functions source

/-- The per-line scan state of SectionExtractCorpusCreator._transform: the
accumulated word list, the prior-line-was-empty flag, and the current
heading. -/
structure SectionScanState where
  words : List String
  prior_empty : Bool
  heading : String
deriving DecidableEq

/-- First character of the line is one of the bullet markers +, *, -. -/
def firstCharIsBullet (line : String) : Bool :=
  match line.toList with
  | [] => false
  | c :: _ => c == '+' || c == '*' || c == '-'

/-- The bullet-stripping loop of SectionExtractCorpusCreator._transform: for
each bullet marker in order, if the line starts with it, Python
line.replace removes every occurrence of that marker from the line. -/
def stripBullets (line : String) : String :=
  let l1 := if pyStartsWith line "+ " then pyReplace line "+ " "" else line
  let l2 := if pyStartsWith l1 "* " then pyReplace l1 "* " "" else l1
  if pyStartsWith l2 "- " then pyReplace l2 "- " "" else l2

/-- The heading after one line of the scan: a line following an empty line
that is non-blank, not bullet-prefixed and short (one to three
space-separated pieces) or colon-terminated becomes the new heading,
otherwise the heading is unchanged. -/
def headingAfter (st : SectionScanState) (line : String) : String :=
  if st.prior_empty = true ∧ pyStrip line ≠ "" ∧ firstCharIsBullet line = false
      ∧ ((0 < (pySplitOn line " ").length ∧ (pySplitOn line " ").length < 4)
          ∨ pyEndsWith line ":" = true)
  then line else st.heading

/-- One iteration of the line loop in SectionExtractCorpusCreator._transform,
parameterised by the match predicate m standing for
re.match(self.section_regex, heading): update the heading, update the
prior-line-was-empty flag, and when the updated heading matches, the line is
not the heading itself and the stripped line is non-empty, append the
whitespace-split pieces of the bullet-stripped line to the word list. -/
def processLine (m : String → Bool) (st : SectionScanState) (line : String) : SectionScanState :=
  ⟨(if m (headingAfter st line) = true ∧ line ≠ headingAfter st line
        ∧ 0 < (pyStrip line).length
      then st.words ++ pySplitWs (stripBullets line)
      else st.words),
    (pyStrip line).isEmpty,
    headingAfter st line⟩

/-- The full line scan of SectionExtractCorpusCreator._transform over the
lines of the description, starting from the empty word list, a false
prior-line-was-empty flag and an empty heading. -/
def SectionExtractCorpusCreator.scan (m : String → Bool) (lines : List String) : List String :=
  (lines.foldl (processLine m) ⟨[], false, ""⟩).words

/-- SectionExtractCorpusCreator._transform: scan the newline-split lines of
document["description"] (raising on a missing key) and tag the accumulated
word list with the current counter value k. -/
def SectionExtractCorpusCreator.transform (m : String → Bool) (k : Nat) (document : Document) : Except String TaggedDocument :=
  (document.getE "description").map (fun desc => ⟨SectionExtractCorpusCreator.scan m (pySplitOn desc "\n"), [k]⟩)

/-- A sample job posting carrying all five fields of interest, used in closed
evaluations. -/
def exDocC3 : Document :=
  [("description", "Build Things"), ("experienceRequirements", "Two Years"),
   ("qualifications", "BS"), ("skills", "Python"), ("occupationalCategory", "Engineer")]

theorem Document.get?_set_self : ∀ (d : Document) (f v : String),
    (d.set f v).get? f = some v := by
  intro d
  induction d with
  | nil => intro f v; simp [Document.set, Document.get?]
  | cons p rest ih =>
    intro f v
    obtain ⟨k, w⟩ := p
    by_cases hk : k = f
    · simp [Document.set, Document.get?, hk]
    · simp [Document.set, Document.get?, hk, ih]

theorem Document.get?_set_ne : ∀ (d : Document) (f g v : String), f ≠ g →
    (d.set f v).get? g = d.get? g := by
  intro d
  induction d with
  | nil => intro f g v hfg; simp [Document.set, Document.get?, hfg]
  | cons p rest ih =>
    intro f g v hfg
    obtain ⟨k, w⟩ := p
    by_cases hk : k = f
    · subst hk
      simp [Document.set, Document.get?, hfg]
    · by_cases hg : k = g
      · simp [Document.set, Document.get?, hk, hg, Ne.symm hfg]
      · simp [Document.set, Document.get?, hk, hg, ih _ _ _ hfg]

theorem CorpusCreator.clean_absent (nlp : NLPTransforms) : ∀ (fields : List String) (d : Document) (f : String),
    d.get? f = none → (CorpusCreator.clean nlp fields d).get? f = none := by
  intro fields
  induction fields with
  | nil => intro d f habs; exact habs
  | cons x rest ih =>
    intro d f habs
    have hstep : (cleanField nlp d x).get? f = none := by
      unfold cleanField
      cases hx : d.getE x with
      | error e => exact habs
      | ok v =>
        have hxf : x ≠ f := by
          intro hcontra
          rw [hcontra] at hx
          unfold Document.getE at hx
          rw [habs] at hx
          cases hx
        rw [Document.get?_set_ne d x f _ hxf]
        exact habs
    exact ih (cleanField nlp d x) f hstep

theorem project_missing_field : ∀ (fields : List String) (d : Document) (f : String),
    f ∈ fields → d.get? f = none →
    ∃ e, project fields d = Except.error e ∧ d.get? e = none := by
  intro fields
  induction fields with
  | nil => intro d f hf _; exact absurd hf (List.not_mem_nil f)
  | cons x rest ih =>
    intro d f hf habs
    cases hx : d.get? x with
    | none =>
      refine ⟨x, ?_, hx⟩
      simp [project, Document.getE, hx]
    | some v =>
      have hfr : f ∈ rest := by
        rcases List.mem_cons.mp hf with h | h
        · exfalso
          rw [h] at habs
          rw [habs] at hx
          cases hx
        · exact h
      obtain ⟨e, he, hen⟩ := ih d f hfr habs
      refine ⟨e, ?_, hen⟩
      simp [project, Document.getE, hx, he]

theorem mapExcept_missing_field (g : String → String) : ∀ (fields : List String) (d : Document) (f : String),
    f ∈ fields → d.get? f = none →
    ∃ e, mapExcept (fun x => (d.getE x).map g) fields = Except.error e ∧ d.get? e = none := by
  intro fields
  induction fields with
  | nil => intro d f hf _; exact absurd hf (List.not_mem_nil f)
  | cons x rest ih =>
    intro d f hf habs
    cases hx : d.get? x with
    | none =>
      refine ⟨x, ?_, hx⟩
      simp [mapExcept, Document.getE, hx, Except.map]
    | some v =>
      have hfr : f ∈ rest := by
        rcases List.mem_cons.mp hf with h | h
        · exfalso
          rw [h] at habs
          rw [habs] at hx
          cases hx
        · exact h
      have hgetx : d.getE x = Except.ok v := by
        simp [Document.getE, hx]
      obtain ⟨e, he, hen⟩ := ih d f hfr habs
      refine ⟨e, ?_, hen⟩
      show (match (d.getE x).map g with
        | Except.error e => Except.error e
        | Except.ok v =>
          match mapExcept (fun x => (d.getE x).map g) rest with
          | Except.error e => Except.error e
          | Except.ok vs => Except.ok (v :: vs)) = Except.error e
      rw [hgetx]
      show (match mapExcept (fun x => (d.getE x).map g) rest with
        | Except.error e => Except.error e
        | Except.ok vs => Except.ok (g v :: vs)) = Except.error e
      rw [he]

/-- Claim C1 (counterexample): the projection step of the base
CorpusCreator's iteration does fail on a missing configured field — for the
configured fields [description, qualifications] and a posting carrying only
description, iteration raises a KeyError for qualifications instead of
leaving the field absent. -/
theorem C1_counterexample :
    CorpusCreator.iter specNLP ["description", "qualifications"] false [[("description", "x")]]
      = Except.error "qualifications" := by
  rfl

/-- Claim C1 (amended): when the base Corpus Creator's iteration pulls a Job
Posting, the projection down to the configured schema fields raises a
missing-key error as soon as a configured field is absent from the posting
(aborting the iteration); the tolerance to missing fields lives in the base
clean transform instead, which never fails and leaves an absent field
absent. -/
theorem C1_amended (nlp : NLPTransforms) (fields : List String) (d : Document) (f : String)
    (hf : f ∈ fields) (habs : d.get? f = none) :
    (∃ e, project fields d = Except.error e ∧ d.get? e = none)
    ∧ (CorpusCreator.clean nlp fields d).get? f = none
    ∧ ∀ raw rest, ∃ e, CorpusCreator.iter nlp fields raw (d :: rest) = Except.error e := by
  obtain ⟨e, he, hen⟩ := project_missing_field fields d f hf habs
  refine ⟨⟨e, he, hen⟩, CorpusCreator.clean_absent nlp fields d f habs, ?_⟩
  intro raw rest
  refine ⟨e, ?_⟩
  show (match project fields d with
    | Except.error e => Except.error e
    | Except.ok pd =>
      match CorpusCreator.iter nlp fields raw rest with
      | Except.error e => Except.error e
      | Except.ok outs => Except.ok (CorpusCreator.transform nlp fields raw pd :: outs)) = Except.error e
  rw [he]

/-- Witness for C1_amended at a concrete input: fields
[description, qualifications] and a posting carrying only description. -/
theorem C1_witness :
    (∃ e, project ["description", "qualifications"] [("description", "x")] = Except.error e
        ∧ Document.get? [("description", "x")] e = none)
    ∧ (CorpusCreator.clean specNLP ["description", "qualifications"] [("description", "x")]).get? "qualifications" = none := by
  have h := C1_amended specNLP ["description", "qualifications"] [("description", "x")]
    "qualifications" (by decide) (by rfl)
  exact ⟨h.1, h.2.1⟩

/-- Claim C2 (counterexample): a Simple corpus creator constructed with
raw=True does not produce the lowercased punctuation-stripped string — on the
document with description "Hello" it yields the raw join "Hello" while the
raw=False instance yields "hello". -/
theorem C2_counterexample :
    SimpleCorpusCreator.iter specNLP ["description"] true [[("description", "Hello")]] = Except.ok ["Hello"]
    ∧ SimpleCorpusCreator.iter specNLP ["description"] false [[("description", "Hello")]] = Except.ok ["hello"]
    ∧ (["Hello"] : List String) ≠ ["hello"] := by
  refine ⟨by rfl, by rfl, by decide⟩

/-- Claim C2 (amended): the Simple variant produces the one lowercased,
punctuation-stripped string per document only when the raw flag is false; the
variant overrides only the clean step, so with raw=True the inherited
transform returns the raw configured field values joined by single spaces —
the raw flag is honoured, not ignored. -/
theorem C2_amended (nlp : NLPTransforms) (fields : List String) (d : Document) :
    SimpleCorpusCreator.transform nlp fields false d
      = pyJoin " " (fields.map (fun f => nlp.lowercase_strip_punc (d.getD f "")))
    ∧ SimpleCorpusCreator.transform nlp fields true d
      = pyJoin " " (fields.map (fun f => d.getD f "")) :=
  ⟨rfl, rfl⟩

/-- Claim C3 (code evaluated at the failing input): the class attribute
fixing the fields to [occupationalCategory] is shadowed by the instance
attribute that the inherited constructor assigns from its parameter
(defaulting to the base four-field list), so a default-constructed
Category-label creator transforms the four configured fields — not the fixed
occupationalCategory field the class attribute and docstring promise. -/
theorem C3_class_attribute_shadowed :
    JobCategoryCorpusCreator.class_document_schema_fields = ["occupationalCategory"]
    ∧ JobCategoryCorpusCreator.transform specNLP defaultFields exDocC3
        = Except.ok "build things two years bs python"
    ∧ JobCategoryCorpusCreator.transform specNLP JobCategoryCorpusCreator.class_document_schema_fields exDocC3
        = Except.ok "engineer"
    ∧ ("build things two years bs python" : String) ≠ "engineer" := by
  refine ⟨rfl, by rfl, by rfl, by decide⟩

/-- Claim C8: a document missing the configured field qualifications is
cleaned without failure by the base tolerant clean transform (the field stays
absent), while the Doc2Vec-style and Word2Vec-style clean transforms both
fail with a missing-key error naming an absent field. -/
theorem C8_strict_vs_tolerant (nlp : NLPTransforms) (fields : List String) (d : Document)
    (hf : "qualifications" ∈ fields) (habs : d.get? "qualifications" = none) :
    (CorpusCreator.clean nlp fields d).get? "qualifications" = none
    ∧ (∃ e, Doc2VecGensimCorpusCreator.clean nlp fields d = Except.error e ∧ d.get? e = none)
    ∧ (∃ e, Word2VecGensimCorpusCreator.clean nlp fields d = Except.error e ∧ d.get? e = none) := by
  obtain ⟨e, he, hen⟩ := mapExcept_missing_field nlp.clean_str fields d "qualifications" hf habs
  refine ⟨CorpusCreator.clean_absent nlp fields d "qualifications" habs, ⟨e, ?_, hen⟩, ⟨e, ?_, hen⟩⟩
  · unfold Doc2VecGensimCorpusCreator.clean
    rw [he]
    rfl
  · unfold Word2VecGensimCorpusCreator.clean
    rw [he]
    rfl

/-- Witness for C8_strict_vs_tolerant: the default four-field configuration
and a posting carrying every default field except qualifications. -/
theorem C8_witness :
    (CorpusCreator.clean specNLP defaultFields [("description", "x"), ("experienceRequirements", "y"), ("skills", "z")]).get? "qualifications" = none
    ∧ (∃ e, Doc2VecGensimCorpusCreator.clean specNLP defaultFields [("description", "x"), ("experienceRequirements", "y"), ("skills", "z")] = Except.error e
        ∧ Document.get? [("description", "x"), ("experienceRequirements", "y"), ("skills", "z")] e = none) := by
  have h := C8_strict_vs_tolerant specNLP defaultFields
    [("description", "x"), ("experienceRequirements", "y"), ("skills", "z")] (by decide) (by rfl)
  exact ⟨h.1, h.2.1⟩

/-- Claim C4 (counterexample): the zero-stage pipeline does not remove items
equal to the empty marker — building over a source containing None yields the
source unchanged, None included. -/
theorem C4_counterexample :
    IterablePipeline.build ([] : List (Nat → Option Nat)) [some 0, none] = [some 0, none]
    ∧ none ∈ IterablePipeline.build ([] : List (Nat → Option Nat)) [some 0, none] :=
  ⟨rfl, by decide⟩

/-- Claim C4 (amended): composing zero pipeline stages and building over any
source sequence yields the source exactly, item for item — items equal to the
empty marker (None) included, since the None-skipping filter lives only
inside wrapped stages and an empty composition is the bare identity. -/
theorem C4_amended (V : Type) (source : List (Option V)) :
    IterablePipeline.build [] source = source :=
  rfl

/-- Claim C7 (counterexample): when the None-returning stage is the last
stage of the pipeline, the produced None does appear in the built output — a
one-stage pipeline whose stage returns None maps [some 0] to [none], an
output of length one, not to an empty output. -/
theorem C7_counterexample :
    IterablePipeline.build [fun _ => (none : Option Nat)] [some 0] = [none]
    ∧ (IterablePipeline.build [fun _ => (none : Option Nat)] [some 0]).length = 1 :=
  ⟨rfl, rfl⟩

/-- Claim C7 (amended): a stage returning None for an item produces a None
item in that stage's own output; the item is dropped only by the input filter
of the following stage. Hence with a later stage present the item disappears
from the built output, but when the None-returning stage is the last stage
the None itself appears in the built output. -/
theorem C7_amended (V : Type) (f g : V → Option V) (v : V) (source : List (Option V))
    (h : f v = none) :
    IterablePipeline.build [f, g] (some v :: source) = IterablePipeline.build [f, g] source
    ∧ IterablePipeline.build [f] (some v :: source) = none :: IterablePipeline.build [f] source := by
  constructor
  · show func2gen g (func2gen f (some v :: source)) = func2gen g (func2gen f source)
    rw [show func2gen f (some v :: source) = f v :: func2gen f source from rfl, h]
    rfl
  · show func2gen f (some v :: source) = none :: func2gen f source
    rw [show func2gen f (some v :: source) = f v :: func2gen f source from rfl, h]

/-- Witness for C7_amended: a constant-None stage followed by a some-wrapping
stage, applied to the one-item source [some 0]. -/
theorem C7_witness :
    IterablePipeline.build [fun _ => (none : Option Nat), fun x => some x] [some 0]
      = IterablePipeline.build [fun _ => (none : Option Nat), fun x => some x] []
    ∧ IterablePipeline.build [fun _ => (none : Option Nat)] [some 0]
      = none :: IterablePipeline.build [fun _ => (none : Option Nat)] [] :=
  C7_amended Nat (fun _ => none) (fun x => some x) 0 [] rfl

/-- Claim C9: on the description "Intro\n\nRequirements:\n- Must code\n- Must
test\n\nBenefits:\n- Gym" with a pattern matching "Requirements" at the start
of the heading, the Section Extractor's transform produces exactly the tokens
["Must", "code", "Must", "test"], and no token from the lines under the
Benefits heading. -/
theorem C9_section_extraction :
    SectionExtractCorpusCreator.transform (fun h => pyStartsWith h "Requirements") 0
        [("description", "Intro\n\nRequirements:\n- Must code\n- Must test\n\nBenefits:\n- Gym")]
      = Except.ok ⟨["Must", "code", "Must", "test"], [0]⟩
    ∧ "Gym" ∉ (["Must", "code", "Must", "test"] : List String) :=
  ⟨by rfl, by decide⟩

/-- Claim C6 (counterexample): for the content line "- foo - bar" under a
matching heading, the appended tokens are ["foo", "bar"], not
["foo", "-", "bar"] — Python line.replace removes every occurrence of the
leading bullet marker, not only the leading one. -/
theorem C6_counterexample :
    SectionExtractCorpusCreator.scan (fun h => pyStartsWith h "Head") ["", "Head:", "- foo - bar"]
      = ["foo", "bar"]
    ∧ (["foo", "bar"] : List String) ≠ ["foo", "-", "bar"] :=
  ⟨by decide, by decide⟩

/-- Claim C6 (amended): when a non-heading content line under a matching
heading is accumulated, the bullet-stripping loop removes every occurrence of
a matched leading bullet marker sequence from the line (cascading over the
markers "+ ", "* ", "- " in order), and the whitespace-split tokens of the
resulting line are appended; in particular the line "- foo - bar" contributes
the tokens ["foo", "bar"]. -/
theorem C6_amended (m : String → Bool) (st : SectionScanState) (line : String)
    (hpe : st.prior_empty = false) (hm : m st.heading = true)
    (hne : line ≠ st.heading) (hlen : 0 < (pyStrip line).length) :
    (processLine m st line).words = st.words ++ pySplitWs (stripBullets line)
    ∧ pySplitWs (stripBullets "- foo - bar") = ["foo", "bar"] := by
  refine ⟨?_, by decide⟩
  have hh : headingAfter st line = st.heading := by
    unfold headingAfter
    rw [if_neg]
    rintro ⟨h1, -⟩
    rw [hpe] at h1
    exact Bool.false_ne_true h1
  show (if m (headingAfter st line) = true ∧ line ≠ headingAfter st line
          ∧ 0 < (pyStrip line).length
        then st.words ++ pySplitWs (stripBullets line)
        else st.words) = st.words ++ pySplitWs (stripBullets line)
  rw [hh, if_pos ⟨hm, hne, hlen⟩]

/-- Witness for C6_amended: the scan state after the heading "Head:" was
detected, a matching pattern, and the content line "- foo - bar". -/
theorem C6_witness :
    (processLine (fun h => pyStartsWith h "Head") ⟨[], false, "Head:"⟩ "- foo - bar").words
      = [] ++ pySplitWs (stripBullets "- foo - bar")
    ∧ pySplitWs (stripBullets "- foo - bar") = ["foo", "bar"] :=
  C6_amended (fun h => pyStartsWith h "Head") ⟨[], false, "Head:"⟩ "- foo - bar"
    rfl (by decide) (by decide) (by decide)

theorem scan_no_matching_heading (m : String → Bool) :
    ∀ (ls : List String) (st : SectionScanState),
      m st.heading = false → (∀ l ∈ ls, m l = false) →
      (ls.foldl (processLine m) st).words = st.words
      ∧ m (ls.foldl (processLine m) st).heading = false := by
  intro ls
  induction ls with
  | nil => intro st h1 _; exact ⟨rfl, h1⟩
  | cons l rest ih =>
    intro st h1 h2
    have hml : m l = false := h2 l (List.mem_cons_self l rest)
    have hh : m (headingAfter st l) = false := by
      unfold headingAfter
      split
      · exact hml
      · exact h1
    have hw : (processLine m st l).words = st.words := by
      show (if m (headingAfter st l) = true ∧ l ≠ headingAfter st l
              ∧ 0 < (pyStrip l).length
            then st.words ++ pySplitWs (stripBullets l)
            else st.words) = st.words
      rw [if_neg]
      rintro ⟨hc, -⟩
      rw [hh] at hc
      exact Bool.false_ne_true hc
    have hrec := ih (processLine m st l) hh (fun x hx => h2 x (List.mem_cons_of_mem l hx))
    rw [List.foldl_cons]
    exact ⟨by rw [hrec.1, hw], hrec.2⟩

/-- Claim C10: the first line of a description can never be detected as a
heading, because the prior-line-was-empty flag starts false — so whenever the
pattern does not match the empty initial heading and matches no line after
the first (so no other heading can ever match), the scan accumulates no
tokens and yields the empty token list, even if the pattern matches the first
line itself. -/
theorem C10_first_line_never_heading (m : String → Bool) (l0 : String) (ls : List String)
    (h0 : m "" = false) (hrest : ∀ l ∈ ls, m l = false) :
    SectionExtractCorpusCreator.scan m (l0 :: ls) = [] := by
  unfold SectionExtractCorpusCreator.scan
  rw [List.foldl_cons]
  have hh : headingAfter ⟨[], false, ""⟩ l0 = "" := by
    unfold headingAfter
    rw [if_neg]
    rintro ⟨h1, -⟩
    exact Bool.false_ne_true h1
  have hstate : processLine m ⟨[], false, ""⟩ l0 = ⟨[], (pyStrip l0).isEmpty, ""⟩ := by
    unfold processLine
    rw [hh]
    rw [if_neg]
    rintro ⟨hc, -⟩
    rw [h0] at hc
    exact Bool.false_ne_true hc
  rw [hstate]
  exact (scan_no_matching_heading m ls ⟨[], (pyStrip l0).isEmpty, ""⟩ h0 hrest).1

/-- Witness for C10_first_line_never_heading: the pattern matching
"Requirements" and a description whose matching heading "Requirements:" is
the very first line. -/
theorem C10_witness :
    SectionExtractCorpusCreator.scan (fun h => pyStartsWith h "Requirements")
      ["Requirements:", "- Must code"] = [] :=
  C10_first_line_never_heading (fun h => pyStartsWith h "Requirements")
    "Requirements:" ["- Must code"] (by decide) (by decide)

theorem listGet?SomeLt {A : Type} : ∀ (l : List A) (i : Nat) (a : A),
    l.get? i = some a → i < l.length := by
  intro l
  induction l with
  | nil => intro i a h; simp [List.get?] at h
  | cons x rest ih =>
    intro i a h
    cases i with
    | zero => exact Nat.succ_pos rest.length
    | succ n =>
      have := ih n a (by simpa [List.get?] using h)
      simp [List.length_cons]
      omega

theorem listGet?OfLt {A : Type} : ∀ (l : List A) (i : Nat),
    i < l.length → ∃ a, l.get? i = some a := by
  intro l
  induction l with
  | nil => intro i h; simp at h
  | cons x rest ih =>
    intro i h
    cases i with
    | zero => exact ⟨x, rfl⟩
    | succ n =>
      have hn : n < rest.length := by
        simp [List.length_cons] at h
        omega
      obtain ⟨a, ha⟩ := ih n hn
      exact ⟨a, by simpa [List.get?] using ha⟩

theorem listGet?Take {A : Type} : ∀ (l : List A) (n i : Nat),
    i < n → (l.take n).get? i = l.get? i := by
  intro l
  induction l with
  | nil => intro n i _; cases n <;> rfl
  | cons x rest ih =>
    intro n i hin
    cases n with
    | zero => omega
    | succ n' =>
      cases i with
      | zero => rfl
      | succ j =>
        show (rest.take n').get? j = rest.get? j
        exact ih n' j (by omega)

theorem listTakeLen {A : Type} : ∀ (l : List A) (n : Nat),
    n ≤ l.length → (l.take n).length = n := by
  intro l
  induction l with
  | nil => intro n h; simp at h; simp [h]
  | cons x rest ih =>
    intro n h
    cases n with
    | zero => rfl
    | succ n' =>
      show (rest.take n').length + 1 = n' + 1
      rw [ih n' (by simpa [List.length_cons, Nat.succ_le_succ_iff] using h)]

theorem lookupGet?SetSelf : ∀ (l : Lookup) (k : Nat) (v : Option String),
    Lookup.get? (Lookup.set l k v) k = some v := by
  intro l
  induction l with
  | nil => intro k v; simp [Lookup.set, Lookup.get?]
  | cons p rest ih =>
    intro k v
    obtain ⟨k', w⟩ := p
    by_cases hk : k' = k
    · simp [Lookup.set, Lookup.get?, hk]
    · simp [Lookup.set, Lookup.get?, hk, ih]

theorem lookupGet?SetNe : ∀ (l : Lookup) (k j : Nat) (v : Option String), j ≠ k →
    Lookup.get? (Lookup.set l k v) j = Lookup.get? l j := by
  intro l
  induction l with
  | nil => intro k j v hjk; simp [Lookup.set, Lookup.get?, Ne.symm hjk]
  | cons p rest ih =>
    intro k j v hjk
    obtain ⟨k', w⟩ := p
    by_cases hk : k' = k
    · subst hk
      simp [Lookup.set, Lookup.get?, Ne.symm hjk]
    · by_cases hj : k' = j
      · simp [Lookup.set, Lookup.get?, hk, hj, hjk]
      · simp [Lookup.set, Lookup.get?, hk, hj, ih _ _ _ hjk]

theorem d2v_transform_tags (nlp : NLPTransforms) (fields : List String) (k : Nat)
    (d : Document) (td : TaggedDocument)
    (h : Doc2VecGensimCorpusCreator.transform nlp fields k d = Except.ok td) :
    td.tags = [k] := by
  unfold Doc2VecGensimCorpusCreator.transform at h
  cases hc : Doc2VecGensimCorpusCreator.clean nlp fields d with
  | error e => rw [hc] at h; simp [Except.map] at h
  | ok s =>
    rw [hc] at h
    simp [Except.map] at h
    subst h
    rfl

theorem d2v_iterFrom_length (nlp : NLPTransforms) (fields : List String) :
    ∀ (docs : List Document) (k : Nat) (lookup lfin : Lookup) (tds : List TaggedDocument),
      Doc2VecGensimCorpusCreator.iterFrom nlp fields docs k lookup = Except.ok (lfin, tds) →
      tds.length = docs.length := by
  intro docs
  induction docs with
  | nil =>
    intro k lookup lfin tds h
    unfold Doc2VecGensimCorpusCreator.iterFrom at h
    simp at h
    obtain ⟨-, h2⟩ := h
    subst h2
    rfl
  | cons d rest ih =>
    intro k lookup lfin tds h
    unfold Doc2VecGensimCorpusCreator.iterFrom at h
    cases htd : Doc2VecGensimCorpusCreator.transform nlp fields k d with
    | error e => rw [htd] at h; simp at h
    | ok td =>
      rw [htd] at h
      cases hrec : Doc2VecGensimCorpusCreator.iterFrom nlp fields rest (k + 1)
          (Lookup.set lookup k (safe_get d "onet_soc_code")) with
      | error e => rw [hrec] at h; simp at h
      | ok p =>
        obtain ⟨lf, tds0⟩ := p
        rw [hrec] at h
        simp at h
        obtain ⟨-, h2⟩ := h
        subst h2
        show tds0.length + 1 = rest.length + 1
        rw [ih (k + 1) _ _ _ hrec]

theorem d2v_iterFrom_tags (nlp : NLPTransforms) (fields : List String) :
    ∀ (docs : List Document) (k : Nat) (lookup lfin : Lookup) (tds : List TaggedDocument),
      Doc2VecGensimCorpusCreator.iterFrom nlp fields docs k lookup = Except.ok (lfin, tds) →
      ∀ (i : Nat) (td : TaggedDocument), tds.get? i = some td → td.tags = [k + i] := by
  intro docs
  induction docs with
  | nil =>
    intro k lookup lfin tds h i td hget
    unfold Doc2VecGensimCorpusCreator.iterFrom at h
    simp at h
    obtain ⟨-, h2⟩ := h
    subst h2
    simp [List.get?] at hget
  | cons d rest ih =>
    intro k lookup lfin tds h i td hget
    unfold Doc2VecGensimCorpusCreator.iterFrom at h
    cases htd : Doc2VecGensimCorpusCreator.transform nlp fields k d with
    | error e => rw [htd] at h; simp at h
    | ok td0 =>
      rw [htd] at h
      cases hrec : Doc2VecGensimCorpusCreator.iterFrom nlp fields rest (k + 1)
          (Lookup.set lookup k (safe_get d "onet_soc_code")) with
      | error e => rw [hrec] at h; simp at h
      | ok p =>
        obtain ⟨lf, tds0⟩ := p
        rw [hrec] at h
        simp at h
        obtain ⟨-, h2⟩ := h
        subst h2
        cases i with
        | zero =>
          have : td0 = td := by simpa [List.get?] using hget
          subst this
          rw [d2v_transform_tags nlp fields k d td0 htd, Nat.add_zero]
        | succ n =>
          have hget' : tds0.get? n = some td := by simpa [List.get?] using hget
          have hres := ih (k + 1) _ _ _ hrec n td hget'
          rw [hres]
          have : k + 1 + n = k + (n + 1) := by omega
          rw [this]

theorem d2v_iterFrom_preserve (nlp : NLPTransforms) (fields : List String) :
    ∀ (docs : List Document) (k : Nat) (lookup lfin : Lookup) (tds : List TaggedDocument),
      Doc2VecGensimCorpusCreator.iterFrom nlp fields docs k lookup = Except.ok (lfin, tds) →
      ∀ j, j < k → Lookup.get? lfin j = Lookup.get? lookup j := by
  intro docs
  induction docs with
  | nil =>
    intro k lookup lfin tds h j _
    unfold Doc2VecGensimCorpusCreator.iterFrom at h
    simp at h
    obtain ⟨h1, -⟩ := h
    subst h1
    rfl
  | cons d rest ih =>
    intro k lookup lfin tds h j hjk
    unfold Doc2VecGensimCorpusCreator.iterFrom at h
    cases htd : Doc2VecGensimCorpusCreator.transform nlp fields k d with
    | error e => rw [htd] at h; simp at h
    | ok td0 =>
      rw [htd] at h
      cases hrec : Doc2VecGensimCorpusCreator.iterFrom nlp fields rest (k + 1)
          (Lookup.set lookup k (safe_get d "onet_soc_code")) with
      | error e => rw [hrec] at h; simp at h
      | ok p =>
        obtain ⟨lf, tds0⟩ := p
        rw [hrec] at h
        simp at h
        obtain ⟨h1, -⟩ := h
        subst h1
        rw [ih (k + 1) _ _ _ hrec j (by omega)]
        exact lookupGet?SetNe lookup k j _ (by omega)

theorem d2v_iterFrom_lookup (nlp : NLPTransforms) (fields : List String) :
    ∀ (docs : List Document) (k : Nat) (lookup lfin : Lookup) (tds : List TaggedDocument),
      Doc2VecGensimCorpusCreator.iterFrom nlp fields docs k lookup = Except.ok (lfin, tds) →
      ∀ (i : Nat) (d : Document), docs.get? i = some d →
        Lookup.get? lfin (k + i) = some (safe_get d "onet_soc_code") := by
  intro docs
  induction docs with
  | nil => intro k lookup lfin tds _ i d hget; simp [List.get?] at hget
  | cons d0 rest ih =>
    intro k lookup lfin tds h i d hget
    unfold Doc2VecGensimCorpusCreator.iterFrom at h
    cases htd : Doc2VecGensimCorpusCreator.transform nlp fields k d0 with
    | error e => rw [htd] at h; simp at h
    | ok td0 =>
      rw [htd] at h
      cases hrec : Doc2VecGensimCorpusCreator.iterFrom nlp fields rest (k + 1)
          (Lookup.set lookup k (safe_get d0 "onet_soc_code")) with
      | error e => rw [hrec] at h; simp at h
      | ok p =>
        obtain ⟨lf, tds0⟩ := p
        rw [hrec] at h
        simp at h
        obtain ⟨h1, -⟩ := h
        subst h1
        cases i with
        | zero =>
          have : d0 = d := by simpa [List.get?] using hget
          subst this
          rw [Nat.add_zero]
          rw [d2v_iterFrom_preserve nlp fields rest (k + 1) _ _ _ hrec k (by omega)]
          exact lookupGet?SetSelf lookup k _
        | succ n =>
          have hget' : rest.get? n = some d := by simpa [List.get?] using hget
          have hres := ih (k + 1) _ _ _ hrec n d hget'
          have : k + 1 + n = k + (n + 1) := by omega
          rw [this] at hres
          exact hres

theorem d2v_iterFrom_take (nlp : NLPTransforms) (fields : List String) :
    ∀ (docs : List Document) (k : Nat) (lookup lfin : Lookup) (tds : List TaggedDocument),
      Doc2VecGensimCorpusCreator.iterFrom nlp fields docs k lookup = Except.ok (lfin, tds) →
      ∀ n, ∃ l' t', Doc2VecGensimCorpusCreator.iterFrom nlp fields (docs.take n) k lookup = Except.ok (l', t')
        ∧ t' = tds.take n := by
  intro docs
  induction docs with
  | nil =>
    intro k lookup lfin tds h n
    unfold Doc2VecGensimCorpusCreator.iterFrom at h
    simp at h
    obtain ⟨-, h2⟩ := h
    subst h2
    refine ⟨lookup, [], ?_, by simp⟩
    cases n <;> rfl
  | cons d rest ih =>
    intro k lookup lfin tds h n
    unfold Doc2VecGensimCorpusCreator.iterFrom at h
    cases htd : Doc2VecGensimCorpusCreator.transform nlp fields k d with
    | error e => rw [htd] at h; simp at h
    | ok td0 =>
      rw [htd] at h
      cases hrec : Doc2VecGensimCorpusCreator.iterFrom nlp fields rest (k + 1)
          (Lookup.set lookup k (safe_get d "onet_soc_code")) with
      | error e => rw [hrec] at h; simp at h
      | ok p =>
        obtain ⟨lf, tds0⟩ := p
        rw [hrec] at h
        simp at h
        obtain ⟨-, h2⟩ := h
        subst h2
        cases n with
        | zero => exact ⟨lookup, [], rfl, rfl⟩
        | succ n' =>
          obtain ⟨l', t'', hit, htake⟩ := ih (k + 1) _ _ _ hrec n'
          refine ⟨l', td0 :: t'', ?_, ?_⟩
          · show (match Doc2VecGensimCorpusCreator.transform nlp fields k d with
              | Except.error e => Except.error e
              | Except.ok td =>
                match Doc2VecGensimCorpusCreator.iterFrom nlp fields (rest.take n') (k + 1)
                    (Lookup.set lookup k (safe_get d "onet_soc_code")) with
                | Except.error e => Except.error e
                | Except.ok (lfin, tds) => Except.ok (lfin, td :: tds)) = Except.ok (l', td0 :: t'')
            rw [htd, hit]
          · rw [htake]
            rfl

/-- Claim C5: for a single pass of the Doc2Vec-style variant over a source
that completes without a missing-key failure, for every index i the yielded
unit's tag is exactly [i] (so the counter starts at 0, is incremented only
after each yield, and no tag is ever reused), the final lookup maps i to the
i-th document's onet_soc_code as returned by safe-get, and the lookup entry
for i is written before the corresponding unit is yielded: the pass consuming
exactly the first i+1 documents has already recorded entry i in its lookup
while yielding its last (i-th) unit. -/
theorem C5_doc2vec_counter_lookup (nlp : NLPTransforms) (fields : List String)
    (docs : List Document) (lookup : Lookup) (tds : List TaggedDocument)
    (h : Doc2VecGensimCorpusCreator.iter nlp fields docs = Except.ok (lookup, tds)) :
    tds.length = docs.length
    ∧ (∀ i d, docs.get? i = some d →
        (∃ td, tds.get? i = some td ∧ td.tags = [i])
        ∧ Lookup.get? lookup i = some (safe_get d "onet_soc_code")
        ∧ ∃ l' t', Doc2VecGensimCorpusCreator.iter nlp fields (docs.take (i + 1)) = Except.ok (l', t')
            ∧ t'.length = i + 1
            ∧ Lookup.get? l' i = some (safe_get d "onet_soc_code"))
    ∧ (∀ i j ti tj, tds.get? i = some ti → tds.get? j = some tj → i ≠ j →
        ti.tags ≠ tj.tags) := by
  unfold Doc2VecGensimCorpusCreator.iter at h ⊢
  have hlen := d2v_iterFrom_length nlp fields docs 0 [] lookup tds h
  refine ⟨hlen, ?_, ?_⟩
  · intro i d hget
    have hi : i < docs.length := listGet?SomeLt docs i d hget
    have hit : i < tds.length := by rw [hlen]; exact hi
    obtain ⟨td, htd⟩ := listGet?OfLt tds i hit
    have htags := d2v_iterFrom_tags nlp fields docs 0 [] lookup tds h i td htd
    rw [Nat.zero_add] at htags
    have hlk := d2v_iterFrom_lookup nlp fields docs 0 [] lookup tds h i d hget
    rw [Nat.zero_add] at hlk
    obtain ⟨l', t'', hpre, htake⟩ := d2v_iterFrom_take nlp fields docs 0 [] lookup tds h (i + 1)
    refine ⟨⟨td, htd, htags⟩, hlk, l', t'', hpre, ?_, ?_⟩
    · rw [htake]
      exact listTakeLen tds (i + 1) (by omega)
    · have hget' : (docs.take (i + 1)).get? i = some d := by
        rw [listGet?Take docs (i + 1) i (Nat.lt_succ_self i)]
        exact hget
      have hres := d2v_iterFrom_lookup nlp fields (docs.take (i + 1)) 0 [] l' t'' hpre i d hget'
      rw [Nat.zero_add] at hres
      exact hres
  · intro i j ti tj hti htj hij
    have h1 := d2v_iterFrom_tags nlp fields docs 0 [] lookup tds h i ti hti
    have h2 := d2v_iterFrom_tags nlp fields docs 0 [] lookup tds h j tj htj
    rw [Nat.zero_add] at h1 h2
    rw [h1, h2]
    intro hc
    injection hc with hc1 _
    exact hij hc1

/-- Witness for C5_doc2vec_counter_lookup: a two-document source whose
iteration completes, with descriptions "a b" and "c" and onet_soc_code
values "x" and "y". -/
theorem C5_witness :
    ([⟨["a", "b"], [0]⟩, ⟨["c"], [1]⟩] : List TaggedDocument).length
      = ([[("description", "a b"), ("onet_soc_code", "x")],
          [("description", "c"), ("onet_soc_code", "y")]] : List Document).length
    ∧ Lookup.get? [(0, some "x"), (1, some "y")] 0
      = some (safe_get [("description", "a b"), ("onet_soc_code", "x")] "onet_soc_code") := by
  have H := C5_doc2vec_counter_lookup specNLP ["description"]
    [[("description", "a b"), ("onet_soc_code", "x")],
     [("description", "c"), ("onet_soc_code", "y")]]
    [(0, some "x"), (1, some "y")]
    [⟨["a", "b"], [0]⟩, ⟨["c"], [1]⟩]
    (by rfl)
  exact ⟨H.1, (H.2.1 0 _ (by rfl)).2.1⟩
